import Mathlib

/-!
Verification model of QLC+ `MasterTimer` (src/engine/src/mastertimer.h).

The repository provides the class interface and its private data model in
`mastertimer.h`; the method bodies (the `.cpp` implementation) are not part
of the provided sources.  The state fields below follow the header exactly:

  - `QList<Function*> m_functionList`   — currently running functions
  - `QList<Function*> m_startQueue`     — pending-start queue
  - `bool m_stopAllFunctions`           — flag for stopping all functions
  - `bool m_fadeAllSequence`            — fade-all-before-stop flag
  - `int  m_fadeSequenceTimeout`        — total fade sequence length (ms)
  - `int  m_fadeSequenceTimeoutCount`   — counts from timeout down to 0
  - `uchar m_originalGMvalue`           — Grand Master value saved at the
                                          start of a fade+stop sequence
  - `QList<DMXSource*> m_dmxSourceList` — registered DMX sources

Functions and DMX sources are opaque polymorphic objects identified by
reference; we model each by a natural-number identity.  Whether a Function
reports completion during its per-tick `advance` is external behaviour, so
the tick takes an oracle `doneF : Nat → Bool`.  The Grand Master is a single
scalar value; the header stores its saved copy in an 8-bit `uchar` field, so
capture reduces the value modulo 256.  Side effects that the claims speak
about (advancing a function, writing a source, running the fader, the
"function list changed" signal, the buffer hand-off, saving/restoring the
Grand Master) are recorded in an event trace.
-/

set_option autoImplicit false

namespace MasterTimer

/-- Observable per-tick side effects of the timer pipeline. -/
inductive Event where
  /-- a queued Function is promoted into the active set -/
  | promote (f : Nat)
  /-- an active Function's `advance` is invoked against the buffer -/
  | advance (f : Nat)
  /-- a registered DMX source's `write` is invoked against the buffer -/
  | writeSource (s : Nat)
  /-- the GenericFader is run against the buffer -/
  | runFader
  /-- the fade-and-stop countdown is advanced -/
  | fadeCountdown
  /-- the current Grand Master value is captured into `m_originalGMvalue` -/
  | saveGM
  /-- the Grand Master value is restored from `m_originalGMvalue` -/
  | restoreGM
  /-- the `functionListChanged` signal is emitted -/
  | listChanged
  /-- the finalized channel buffer is handed to the external output path -/
  | handOff
  deriving DecidableEq, Repr

/-- The persistent state of a `MasterTimer`, following the private section of
`mastertimer.h` field by field, plus the externally visible Grand Master
scalar that `fadeAndStopAll` saves, ramps and restores. -/
structure MT where
  m_functionList : List Nat
  m_startQueue : List Nat
  m_stopAllFunctions : Bool
  m_fadeAllSequence : Bool
  m_fadeSequenceTimeout : Int
  m_fadeSequenceTimeoutCount : Int
  m_originalGMvalue : Nat
  m_dmxSourceList : List Nat
  grandMaster : Nat
  deriving DecidableEq, Repr

/-- Modelled from the spec: the body of `startFunction` is not in the
provided sources.  "under lock, if `f` is already active or already queued,
no-op; otherwise append to the pending-start queue". -/
def startFunction (f : Nat) (s : MT) : MT :=
  if f ∈ s.m_functionList ∨ f ∈ s.m_startQueue then s
  else { s with m_startQueue := s.m_startQueue ++ [f] }

/-- Modelled from the spec: the body of `stopAllFunctions` is not in the
provided sources.  "sets a stop-all flag; observed at the next tick
boundary". -/
def stopAllFunctions (s : MT) : MT :=
  { s with m_stopAllFunctions := true }

/-- Modelled from the spec: the body of `fadeAndStopAll` is not in the
provided sources.  "if `timeoutMs <= 0`, behaves as an immediate
`stopAllFunctions()` with no grand-master manipulation.  Otherwise: captures
the current Grand Master value into `savedGrandMaster`, transitions to
`Fading`, sets `remainingMs = totalMs = timeoutMs`."  The saved copy lives
in the 8-bit `uchar m_originalGMvalue` field of the header, hence the
reduction modulo 256 on capture. -/
def fadeAndStopAll (timeout : Int) (s : MT) : MT × List Event :=
  if timeout ≤ 0 then (stopAllFunctions s, [])
  else ({ s with
            m_fadeAllSequence := true
            m_fadeSequenceTimeout := timeout
            m_fadeSequenceTimeoutCount := timeout
            m_originalGMvalue := s.grandMaster % 256 },
        [Event.saveGM])

/-- `runningFunctions` returns the count of the active set. -/
def runningFunctions (s : MT) : Nat :=
  s.m_functionList.length

/-- Modelled from the spec: the body of `registerDMXSource` is not in the
provided sources.  Header: "Each DMXSource instance can be registered
exactly once"; spec: "duplicate registration is rejected (no-op)". -/
def registerDMXSource (src : Nat) (s : MT) : MT :=
  if src ∈ s.m_dmxSourceList then s
  else { s with m_dmxSourceList := s.m_dmxSourceList ++ [src] }

/-- Modelled from the spec: the body of `unregisterDMXSource` is not in the
provided sources.  "unregistration of a non-registered source is a no-op". -/
def unregisterDMXSource (src : Nat) (s : MT) : MT :=
  { s with m_dmxSourceList := s.m_dmxSourceList.erase src }

/-- Modelled from the spec: the body of `timerTickFunctions` is not in the
provided sources.  If the stop-all flag is set, every active Function is
removed, the pending-start queue is cleared and the flag is consumed;
otherwise the pending-start queue is drained into the active set, every
active Function is advanced exactly once, and Functions reporting completion
(oracle `doneF`) are removed.  Returns the new state, the stage's events and
whether the active set's membership changed. -/
def timerTickFunctions (doneF : Nat → Bool) (s : MT) : MT × List Event × Bool :=
  if s.m_stopAllFunctions then
    ({ s with m_functionList := [], m_startQueue := [], m_stopAllFunctions := false },
     [], !s.m_functionList.isEmpty)
  else
    let l := s.m_functionList ++ s.m_startQueue
    ({ s with m_functionList := l.filter (fun f => !doneF f), m_startQueue := [] },
     s.m_startQueue.map Event.promote ++ l.map Event.advance,
     !s.m_startQueue.isEmpty || l.any doneF)

/-- Modelled from the spec: the body of `timerTickDMXSources` is not in the
provided sources.  "every registered source's `write` is invoked once, in
registration order". -/
def timerTickDMXSources (s : MT) : List Event :=
  s.m_dmxSourceList.map Event.writeSource

/-- Modelled from the spec: the body of `timerTickFader` is not in the
provided sources.  "the core's only obligation is to invoke it exactly once
per tick, after Functions and Sources". -/
def timerTickFader : List Event :=
  [Event.runFader]

/-- Modelled from the spec and the header comment on `fadeSequenceCompleted`:
"this function is called to actually stop all functions and restore the
original Grand Master value stored in m_originalGMvalue". -/
def fadeSequenceCompleted (s : MT) : MT :=
  { s with
      m_functionList := []
      m_startQueue := []
      m_fadeAllSequence := false
      m_fadeSequenceTimeoutCount := 0
      grandMaster := s.m_originalGMvalue }

/-- Modelled from the spec: the fade-and-stop countdown stage.  "Per tick
while `Fading`: decrement `remainingMs` by the tick period.  The Grand
Master value is driven down ... linear interpolation ... When
`remainingMs <= 0`: stop all active Functions, restore the Grand Master
value to `savedGrandMaster`, and transition back to `Idle`."  `tp` is the
tick period in milliseconds. -/
def timerTickFade (tp : Nat) (s : MT) : MT × List Event × Bool :=
  if s.m_fadeAllSequence then
    let c := s.m_fadeSequenceTimeoutCount - (tp : Int)
    if c ≤ 0 then
      (fadeSequenceCompleted s, [Event.fadeCountdown, Event.restoreGM],
       !s.m_functionList.isEmpty)
    else
      ({ s with
           m_fadeSequenceTimeoutCount := c
           grandMaster := s.m_originalGMvalue * c.toNat / s.m_fadeSequenceTimeout.toNat },
       [Event.fadeCountdown], false)
  else (s, [], false)

/-- Modelled from the spec: the body of `timerTick` is not in the provided
sources.  "Each tick performs, strictly in order: (1) promote queued
Function starts, (2) run active Functions, (3) run DMX Sources, (4) run the
fader, (5) advance fade-out countdown if active, (6) hand the buffer to the
external output path."  The `functionListChanged` signal is coalesced to at
most one emission per tick. -/
def timerTick (doneF : Nat → Bool) (tp : Nat) (s : MT) : MT × List Event :=
  ((timerTickFade tp (timerTickFunctions doneF s).1).1,
   (timerTickFunctions doneF s).2.1 ++
     timerTickDMXSources (timerTickFunctions doneF s).1 ++
     timerTickFader ++
     (timerTickFade tp (timerTickFunctions doneF s).1).2.1 ++
     (if (timerTickFunctions doneF s).2.2 ||
           (timerTickFade tp (timerTickFunctions doneF s).1).2.2
      then [Event.listChanged] else []) ++
     [Event.handOff])

/-- Run `n` consecutive ticks, concatenating their traces. -/
def runTicks (doneF : Nat → Bool) (tp : Nat) : Nat → MT → MT × List Event
  | 0, s => (s, [])
  | n + 1, s =>
      let r := timerTick doneF tp s
      let r' := runTicks doneF tp n r.1
      (r'.1, r.2 ++ r'.2)

/-- Apply `startFunction f` `n` times in a row. -/
def iterStart (f : Nat) : Nat → MT → MT
  | 0, s => s
  | n + 1, s => iterStart f n (startFunction f s)

/-- Pipeline position of an event inside one tick (stage numbering of the
spec: promotion and advancing are the function stage, then DMX sources, the
fader, the fade-out countdown, the coalesced notification, the hand-off). -/
def stageOf : Event → Nat
  | .promote _ => 1
  | .advance _ => 2
  | .writeSource _ => 3
  | .runFader => 4
  | .fadeCountdown => 5
  | .restoreGM => 5
  | .saveGM => 0
  | .listChanged => 6
  | .handOff => 7

/-- Direct characterization of "the active set's membership changes during
this tick", computed from the pre-tick state and the completion oracle. -/
def membershipChanged (doneF : Nat → Bool) (tp : Nat) (s : MT) : Bool :=
  if s.m_stopAllFunctions then !s.m_functionList.isEmpty
  else
    let l := s.m_functionList ++ s.m_startQueue
    !s.m_startQueue.isEmpty || l.any doneF ||
      (s.m_fadeAllSequence && decide (s.m_fadeSequenceTimeoutCount ≤ (tp : Int)) &&
        !(l.filter (fun f => !doneF f)).isEmpty)

/-! ### Basic stage lemmas -/

theorem bool_ne_true {b : Bool} (h : ¬ b = true) : b = false := by
  cases b <;> simp_all

theorem timerTickFunctions_stop (doneF : Nat → Bool) (s : MT)
    (h : s.m_stopAllFunctions = true) :
    timerTickFunctions doneF s =
      ({ s with m_functionList := [], m_startQueue := [], m_stopAllFunctions := false },
       [], !s.m_functionList.isEmpty) := by
  simp [timerTickFunctions, h]

theorem timerTickFunctions_run (doneF : Nat → Bool) (s : MT)
    (h : s.m_stopAllFunctions = false) :
    timerTickFunctions doneF s =
      ({ s with
           m_functionList := (s.m_functionList ++ s.m_startQueue).filter (fun f => !doneF f),
           m_startQueue := [] },
       s.m_startQueue.map Event.promote ++
         (s.m_functionList ++ s.m_startQueue).map Event.advance,
       !s.m_startQueue.isEmpty || (s.m_functionList ++ s.m_startQueue).any doneF) := by
  simp [timerTickFunctions, h]

theorem timerTickFade_idle (tp : Nat) (s : MT) (h : s.m_fadeAllSequence = false) :
    timerTickFade tp s = (s, [], false) := by
  simp [timerTickFade, h]

theorem timerTickFade_complete (tp : Nat) (s : MT) (h : s.m_fadeAllSequence = true)
    (hle : s.m_fadeSequenceTimeoutCount ≤ (tp : Int)) :
    timerTickFade tp s =
      (fadeSequenceCompleted s, [Event.fadeCountdown, Event.restoreGM],
       !s.m_functionList.isEmpty) := by
  simp only [timerTickFade, h, if_true]
  rw [if_pos (by omega)]

theorem timerTickFade_step (tp : Nat) (s : MT) (h : s.m_fadeAllSequence = true)
    (hlt : (tp : Int) < s.m_fadeSequenceTimeoutCount) :
    timerTickFade tp s =
      ({ s with
           m_fadeSequenceTimeoutCount := s.m_fadeSequenceTimeoutCount - (tp : Int),
           grandMaster := s.m_originalGMvalue *
             (s.m_fadeSequenceTimeoutCount - (tp : Int)).toNat /
               s.m_fadeSequenceTimeout.toNat },
       [Event.fadeCountdown], false) := by
  simp only [timerTickFade, h, if_true]
  rw [if_neg (by omega)]

/-- The function stage touches only the run lists and the stop-all flag. -/
theorem timerTickFunctions_frame (doneF : Nat → Bool) (s : MT) :
    ((timerTickFunctions doneF s).1.m_stopAllFunctions = false) ∧
    (timerTickFunctions doneF s).1.m_fadeAllSequence = s.m_fadeAllSequence ∧
    (timerTickFunctions doneF s).1.m_fadeSequenceTimeout = s.m_fadeSequenceTimeout ∧
    (timerTickFunctions doneF s).1.m_fadeSequenceTimeoutCount = s.m_fadeSequenceTimeoutCount ∧
    (timerTickFunctions doneF s).1.m_originalGMvalue = s.m_originalGMvalue ∧
    (timerTickFunctions doneF s).1.m_dmxSourceList = s.m_dmxSourceList ∧
    (timerTickFunctions doneF s).1.grandMaster = s.grandMaster := by
  by_cases h : s.m_stopAllFunctions = true
  · simp [timerTickFunctions_stop doneF s h]
  · simp [timerTickFunctions_run doneF s (bool_ne_true h), bool_ne_true h]

/-- The fade stage never touches the DMX source registry nor the stop-all
flag. -/
theorem timerTickFade_frame (tp : Nat) (s : MT) :
    (timerTickFade tp s).1.m_dmxSourceList = s.m_dmxSourceList ∧
    (timerTickFade tp s).1.m_stopAllFunctions = s.m_stopAllFunctions := by
  by_cases h : s.m_fadeAllSequence = true
  · by_cases hle : s.m_fadeSequenceTimeoutCount ≤ (tp : Int)
    · simp [timerTickFade_complete tp s h hle, fadeSequenceCompleted]
    · simp [timerTickFade_step tp s h (by omega)]
  · simp [timerTickFade_idle tp s (bool_ne_true h)]

/-! ### Trace counting helpers -/

theorem count_map_promote (e : Event) (l : List Nat) (h : ∀ f, e ≠ Event.promote f) :
    (l.map Event.promote).count e = 0 := by
  rw [List.count_eq_zero]
  intro hmem
  obtain ⟨f, _, rfl⟩ := List.mem_map.mp hmem
  exact (h f) rfl

theorem count_map_advance (e : Event) (l : List Nat) (h : ∀ f, e ≠ Event.advance f) :
    (l.map Event.advance).count e = 0 := by
  rw [List.count_eq_zero]
  intro hmem
  obtain ⟨f, _, rfl⟩ := List.mem_map.mp hmem
  exact (h f) rfl

theorem count_map_writeSource (e : Event) (l : List Nat) (h : ∀ f, e ≠ Event.writeSource f) :
    (l.map Event.writeSource).count e = 0 := by
  rw [List.count_eq_zero]
  intro hmem
  obtain ⟨f, _, rfl⟩ := List.mem_map.mp hmem
  exact (h f) rfl

/-! ### C4: stop-all followed by one tick empties everything -/

/-- Every branch of the function stage leaves the pending-start queue
empty. -/
theorem timerTickFunctions_startQueue (doneF : Nat → Bool) (s : MT) :
    (timerTickFunctions doneF s).1.m_startQueue = [] := by
  by_cases h : s.m_stopAllFunctions = true
  · simp [timerTickFunctions_stop doneF s h]
  · simp [timerTickFunctions_run doneF s (bool_ne_true h)]

/-- The fade stage either leaves the run lists alone or (at completion)
clears them. -/
theorem timerTickFade_lists (tp : Nat) (s : MT) :
    ((timerTickFade tp s).1.m_functionList = s.m_functionList ∧
      (timerTickFade tp s).1.m_startQueue = s.m_startQueue) ∨
    ((timerTickFade tp s).1.m_functionList = [] ∧
      (timerTickFade tp s).1.m_startQueue = []) := by
  by_cases h : s.m_fadeAllSequence = true
  · by_cases hle : s.m_fadeSequenceTimeoutCount ≤ (tp : Int)
    · right; simp [timerTickFade_complete tp s h hle, fadeSequenceCompleted]
    · left; simp [timerTickFade_step tp s h (by omega)]
  · left; simp [timerTickFade_idle tp s (bool_ne_true h)]

/-- After any tick, whatever the pre-state, the pending-start queue is
empty (every stage-1 branch clears it and stage 5 never re-fills it). -/
theorem tick_clears_startQueue (doneF : Nat → Bool) (tp : Nat) (s : MT) :
    (timerTick doneF tp s).1.m_startQueue = [] := by
  show (timerTickFade tp (timerTickFunctions doneF s).1).1.m_startQueue = []
  rcases timerTickFade_lists tp (timerTickFunctions doneF s).1 with h | h
  · rw [h.2, timerTickFunctions_startQueue]
  · exact h.2

theorem count_stage1_events (doneF : Nat → Bool) (s : MT) (e : Event)
    (h1 : ∀ f, e ≠ Event.promote f) (h2 : ∀ f, e ≠ Event.advance f) :
    (timerTickFunctions doneF s).2.1.count e = 0 := by
  by_cases h : s.m_stopAllFunctions = true
  · simp [timerTickFunctions_stop doneF s h]
  · rw [timerTickFunctions_run doneF s (bool_ne_true h)]
    simp [List.count_append, count_map_promote _ _ h1, count_map_advance _ _ h2]

theorem count_fade_events (tp : Nat) (s : MT) (e : Event)
    (h1 : e ≠ Event.fadeCountdown) (h2 : e ≠ Event.restoreGM) :
    (timerTickFade tp s).2.1.count e = 0 := by
  by_cases h : s.m_fadeAllSequence = true
  · by_cases hle : s.m_fadeSequenceTimeoutCount ≤ (tp : Int)
    · simp [timerTickFade_complete tp s h hle, List.count_cons, h1, h2]
    · simp [timerTickFade_step tp s h (by omega), List.count_cons, h1]
  · simp [timerTickFade_idle tp s (bool_ne_true h)]

theorem count_fade_restore (tp : Nat) (s : MT) :
    (timerTickFade tp s).2.1.count Event.restoreGM =
      if s.m_fadeAllSequence = true ∧ s.m_fadeSequenceTimeoutCount ≤ (tp : Int)
      then 1 else 0 := by
  by_cases h : s.m_fadeAllSequence = true
  · by_cases hle : s.m_fadeSequenceTimeoutCount ≤ (tp : Int)
    · simp [timerTickFade_complete tp s h hle, List.count_cons, h, hle]
    · rw [timerTickFade_step tp s h (by omega)]
      simp [List.count_cons, h, hle]
  · simp [timerTickFade_idle tp s (bool_ne_true h), bool_ne_true h]

theorem count_notif (c : Prop) [Decidable c] (e : Event) (h : e ≠ Event.listChanged) :
    (if c then [Event.listChanged] else []).count e = 0 := by
  by_cases hc : c <;> simp [hc, List.count_cons, h]

/-- Counting any event that only the fade stage can emit reduces to counting
it in the fade stage's own events. -/
theorem tick_count_eq (doneF : Nat → Bool) (tp : Nat) (s : MT) (e : Event)
    (hp : ∀ f, e ≠ Event.promote f) (ha : ∀ f, e ≠ Event.advance f)
    (hw : ∀ f, e ≠ Event.writeSource f) (hrf : e ≠ Event.runFader)
    (hlc : e ≠ Event.listChanged) (hho : e ≠ Event.handOff) :
    (timerTick doneF tp s).2.count e =
      (timerTickFade tp (timerTickFunctions doneF s).1).2.1.count e := by
  simp only [timerTick]
  rw [List.count_append, List.count_append, List.count_append, List.count_append,
      List.count_append]
  rw [count_stage1_events doneF s e hp ha]
  rw [show (timerTickDMXSources (timerTickFunctions doneF s).1).count e = 0 from by
        simp only [timerTickDMXSources]
        exact count_map_writeSource e _ hw]
  rw [count_notif _ e hlc]
  simp [timerTickFader, List.count_cons, hrf, hho]

theorem tick_count_saveGM (doneF : Nat → Bool) (tp : Nat) (s : MT) :
    (timerTick doneF tp s).2.count Event.saveGM = 0 := by
  rw [tick_count_eq doneF tp s Event.saveGM (by intro f h; cases h) (by intro f h; cases h)
      (by intro f h; cases h) (by intro h; cases h) (by intro h; cases h)
      (by intro h; cases h)]
  exact count_fade_events tp _ Event.saveGM (by intro h; cases h) (by intro h; cases h)

theorem tick_count_restoreGM (doneF : Nat → Bool) (tp : Nat) (s : MT) :
    (timerTick doneF tp s).2.count Event.restoreGM =
      if s.m_fadeAllSequence = true ∧ s.m_fadeSequenceTimeoutCount ≤ (tp : Int)
      then 1 else 0 := by
  rw [tick_count_eq doneF tp s Event.restoreGM (by intro f h; cases h) (by intro f h; cases h)
      (by intro f h; cases h) (by intro h; cases h) (by intro h; cases h)
      (by intro h; cases h)]
  rw [count_fade_restore tp _]
  have hfr := timerTickFunctions_frame doneF s
  rw [hfr.2.1, hfr.2.2.2.1]

/-! ### Whole-tick structural lemmas -/

/-- The DMX source registry is untouched by a tick. -/
theorem tick_dmx (doneF : Nat → Bool) (tp : Nat) (s : MT) :
    (timerTick doneF tp s).1.m_dmxSourceList = s.m_dmxSourceList := by
  show (timerTickFade tp (timerTickFunctions doneF s).1).1.m_dmxSourceList = _
  rw [(timerTickFade_frame tp _).1, (timerTickFunctions_frame doneF s).2.2.2.2.2.1]

theorem runTicks_dmx (doneF : Nat → Bool) (tp : Nat) :
    ∀ (n : Nat) (s : MT), (runTicks doneF tp n s).1.m_dmxSourceList = s.m_dmxSourceList
  | 0, _ => rfl
  | n + 1, s => by
      show (runTicks doneF tp n (timerTick doneF tp s).1).1.m_dmxSourceList = _
      rw [runTicks_dmx doneF tp n _, tick_dmx]

/-- `stopAllFunctions` and `fadeAndStopAll` leave the source registry
untouched. -/
theorem ops_dmx (t : Int) (s : MT) :
    (stopAllFunctions s).m_dmxSourceList = s.m_dmxSourceList ∧
    (fadeAndStopAll t s).1.m_dmxSourceList = s.m_dmxSourceList := by
  constructor
  · rfl
  · by_cases ht : t ≤ 0 <;> simp [fadeAndStopAll, ht, stopAllFunctions]

/-- When the fade stage is idle, a tick leaves the Grand Master value
untouched. -/
theorem tick_gm_idle (doneF : Nat → Bool) (tp : Nat) (s : MT)
    (hf : s.m_fadeAllSequence = false) :
    (timerTick doneF tp s).1.grandMaster = s.grandMaster ∧
    (timerTick doneF tp s).1.m_fadeAllSequence = false := by
  have hfr := timerTickFunctions_frame doneF s
  show (timerTickFade tp (timerTickFunctions doneF s).1).1.grandMaster = _ ∧
    (timerTickFade tp (timerTickFunctions doneF s).1).1.m_fadeAllSequence = false
  rw [timerTickFade_idle _ _ (by rw [hfr.2.1]; exact hf)]
  exact ⟨hfr.2.2.2.2.2.2, by rw [hfr.2.1]; exact hf⟩

/-- A tick on a state with the stop-all flag raised empties the active
function list. -/
theorem stopAll_tick_empties (doneF : Nat → Bool) (tp : Nat) (s : MT) :
    (timerTick doneF tp (stopAllFunctions s)).1.m_functionList = [] := by
  have h1 : (timerTickFunctions doneF (stopAllFunctions s)).1.m_functionList = [] := by
    rw [timerTickFunctions_stop doneF (stopAllFunctions s) rfl]
  show (timerTickFade tp (timerTickFunctions doneF (stopAllFunctions s)).1).1.m_functionList = []
  rcases timerTickFade_lists tp (timerTickFunctions doneF (stopAllFunctions s)).1 with h | h
  · rw [h.1, h1]
  · exact h.1

/-! ### Claim C4 -/

/-- **C4.** After `stopAllFunctions()` followed by one full tick,
`runningFunctions()` returns 0 and the pending-start queue is empty: the
stop-all flag set by the call is observed at the next tick boundary, at
which point every active Function is removed and the pending-start queue is
cleared. -/
theorem C4_stopAll_then_tick (doneF : Nat → Bool) (tp : Nat) (s : MT) :
    runningFunctions (timerTick doneF tp (stopAllFunctions s)).1 = 0 ∧
    (timerTick doneF tp (stopAllFunctions s)).1.m_startQueue = [] := by
  constructor
  · show ((timerTick doneF tp (stopAllFunctions s)).1.m_functionList).length = 0
    rw [stopAll_tick_empties doneF tp s]
    rfl
  · exact tick_clears_startQueue doneF tp (stopAllFunctions s)

/-! ### Claim C8 -/

/-- **C8.** `stopAllFunctions()` and a complete `fadeAndStopAll(T)` sequence
leave the DMX source registry unchanged: the registered set before the call
equals the set after the call and after every subsequent tick of the
sequence. -/
theorem C8_dmx_registry_unchanged (doneF : Nat → Bool) (tp : Nat) (t : Int)
    (n : Nat) (s : MT) :
    (stopAllFunctions s).m_dmxSourceList = s.m_dmxSourceList ∧
    (fadeAndStopAll t s).1.m_dmxSourceList = s.m_dmxSourceList ∧
    (runTicks doneF tp n (fadeAndStopAll t s).1).1.m_dmxSourceList = s.m_dmxSourceList := by
  refine ⟨(ops_dmx t s).1, (ops_dmx t s).2, ?_⟩
  rw [runTicks_dmx doneF tp n _, (ops_dmx t s).2]

/-! ### Claim C7 -/

/-- The invariant "a Function appears in at most one of the pending-start
queue and the active set": no member of the active list is in the start
queue. -/
def listsDisjoint (s : MT) : Bool :=
  s.m_functionList.all (fun f => decide (f ∉ s.m_startQueue))

theorem listsDisjoint_iff (s : MT) :
    listsDisjoint s = true ↔ ∀ f ∈ s.m_functionList, f ∉ s.m_startQueue := by
  simp [listsDisjoint]

theorem listsDisjoint_of_empty_queue (s : MT) (h : s.m_startQueue = []) :
    listsDisjoint s = true := by
  rw [listsDisjoint_iff, h]
  intro f _ hf
  cases hf

/-- **C7.** Every operation — `startFunction`, `stopAllFunctions`,
`fadeAndStopAll`, and a full tick (promotion, execution/removal, fade
countdown) — preserves the invariant that every Function is in at most one
of the pending-start queue and the active set. -/
theorem C7_lists_disjoint_invariant (f : Nat) (t : Int) (doneF : Nat → Bool)
    (tp : Nat) (s : MT) (h : listsDisjoint s = true) :
    listsDisjoint (startFunction f s) = true ∧
    listsDisjoint (stopAllFunctions s) = true ∧
    listsDisjoint (fadeAndStopAll t s).1 = true ∧
    listsDisjoint (timerTick doneF tp s).1 = true := by
  refine ⟨?_, ?_, ?_, ?_⟩
  · unfold startFunction
    by_cases hmem : f ∈ s.m_functionList ∨ f ∈ s.m_startQueue
    · simpa [hmem] using h
    · rw [if_neg hmem, listsDisjoint_iff]
      intro g hg
      simp only [List.mem_append, List.mem_singleton]
      rintro (hq | rfl)
      · exact (listsDisjoint_iff s).mp h g hg hq
      · exact hmem (Or.inl hg)
  · simpa [listsDisjoint, stopAllFunctions] using h
  · by_cases ht : t ≤ 0
    · simpa [fadeAndStopAll, ht, listsDisjoint, stopAllFunctions] using h
    · simpa [fadeAndStopAll, ht, listsDisjoint] using h
  · exact listsDisjoint_of_empty_queue _ (tick_clears_startQueue doneF tp s)

/-- A concrete state for instantiating hypotheses: two active functions,
one queued start, one registered source. -/
def mtEx : MT :=
  { m_functionList := [1, 2]
    m_startQueue := [3]
    m_stopAllFunctions := false
    m_fadeAllSequence := false
    m_fadeSequenceTimeout := 0
    m_fadeSequenceTimeoutCount := 0
    m_originalGMvalue := 0
    m_dmxSourceList := [5]
    grandMaster := 200 }

/-- **C7 witness.** The invariant hypothesis holds for a concrete state and
the preservation theorem applies to it. -/
theorem C7_lists_disjoint_invariant_witness :
    listsDisjoint mtEx = true ∧
    (listsDisjoint (startFunction 4 mtEx) = true ∧
     listsDisjoint (stopAllFunctions mtEx) = true ∧
     listsDisjoint (fadeAndStopAll 100 mtEx).1 = true ∧
     listsDisjoint (timerTick (fun _ => false) 20 mtEx).1 = true) :=
  ⟨by decide, C7_lists_disjoint_invariant 4 100 (fun _ => false) 20 mtEx (by decide)⟩

/-! ### Claim C2 -/

/-- **C2.** `fadeAndStopAll(timeout)` with `timeout <= 0` behaves exactly as
an immediate `stopAllFunctions()`: the call is literally a `stopAllFunctions`
with no saved Grand Master, the active set is emptied within one tick, and
the Grand Master value is left unchanged — no save, ramp, or restore event
occurs during that tick. -/
theorem C2_fadeAndStopAll_nonpos (doneF : Nat → Bool) (tp : Nat) (t : Int)
    (s : MT) (ht : t ≤ 0) (hf : s.m_fadeAllSequence = false) :
    fadeAndStopAll t s = (stopAllFunctions s, []) ∧
    runningFunctions (timerTick doneF tp (stopAllFunctions s)).1 = 0 ∧
    (timerTick doneF tp (stopAllFunctions s)).1.grandMaster = s.grandMaster ∧
    (timerTick doneF tp (stopAllFunctions s)).2.count Event.saveGM = 0 ∧
    (timerTick doneF tp (stopAllFunctions s)).2.count Event.restoreGM = 0 := by
  refine ⟨by simp [fadeAndStopAll, ht], ?_, ?_, tick_count_saveGM doneF tp _, ?_⟩
  · show ((timerTick doneF tp (stopAllFunctions s)).1.m_functionList).length = 0
    rw [stopAll_tick_empties doneF tp s]
    rfl
  · exact (tick_gm_idle doneF tp (stopAllFunctions s) hf).1
  · rw [tick_count_restoreGM doneF tp (stopAllFunctions s)]
    rw [if_neg]
    rintro ⟨hfa, -⟩
    rw [show (stopAllFunctions s).m_fadeAllSequence = s.m_fadeAllSequence from rfl, hf] at hfa
    cases hfa

/-- **C2 witness.** The theorem applied at `timeout = 0` on a concrete
state with two active functions. -/
theorem C2_fadeAndStopAll_nonpos_witness :
    fadeAndStopAll 0 mtEx = (stopAllFunctions mtEx, []) ∧
    runningFunctions (timerTick (fun _ => false) 20 (stopAllFunctions mtEx)).1 = 0 ∧
    (timerTick (fun _ => false) 20 (stopAllFunctions mtEx)).1.grandMaster = mtEx.grandMaster ∧
    (timerTick (fun _ => false) 20 (stopAllFunctions mtEx)).2.count Event.saveGM = 0 ∧
    (timerTick (fun _ => false) 20 (stopAllFunctions mtEx)).2.count Event.restoreGM = 0 :=
  C2_fadeAndStopAll_nonpos (fun _ => false) 20 0 mtEx (by decide) (by decide)

/-! ### Fade-and-stop sequence: arithmetic and per-tick behaviour -/

/-- Facts about `ceil(T / tp) = (T + tp - 1) / tp` for positive `T`, `tp`:
it is positive, `n * tp` covers `T`, and `(n - 1) * tp` does not. -/
theorem ceil_div_facts (T tp : Nat) (hT : 0 < T) (htp : 0 < tp) :
    0 < (T + tp - 1) / tp ∧ T ≤ ((T + tp - 1) / tp) * tp ∧
      (((T + tp - 1) / tp) - 1) * tp < T := by
  obtain ⟨q, r, hq, hmod, hlt⟩ :
      ∃ q r, (T + tp - 1) / tp = q ∧ tp * q + r = T + tp - 1 ∧ r < tp :=
    ⟨_, _, rfl, Nat.div_add_mod _ _, Nat.mod_lt _ htp⟩
  rw [hq]
  have hq1 : 0 < q := by
    rw [← hq]
    exact Nat.div_pos (by omega) htp
  have hmul : tp * q = q * tp := Nat.mul_comm _ _
  have hsub : (q - 1) * tp + tp = q * tp := by
    cases q with
    | zero => omega
    | succ m => simp [Nat.succ_mul]
  exact ⟨hq1, by omega, by omega⟩

/-- A tick taken while a fade-and-stop sequence is in flight and not yet due
to complete: the sequence stays in flight with the countdown decremented by
the tick period and the bookkeeping fields intact. -/
theorem tick_fading_step (doneF : Nat → Bool) (tp : Nat) (s : MT)
    (hf : s.m_fadeAllSequence = true)
    (hlt : (tp : Int) < s.m_fadeSequenceTimeoutCount) :
    (timerTick doneF tp s).1.m_fadeAllSequence = true ∧
    (timerTick doneF tp s).1.m_fadeSequenceTimeoutCount =
      s.m_fadeSequenceTimeoutCount - (tp : Int) ∧
    (timerTick doneF tp s).1.m_fadeSequenceTimeout = s.m_fadeSequenceTimeout ∧
    (timerTick doneF tp s).1.m_originalGMvalue = s.m_originalGMvalue := by
  have hfr := timerTickFunctions_frame doneF s
  show (timerTickFade tp (timerTickFunctions doneF s).1).1.m_fadeAllSequence = true ∧
    (timerTickFade tp (timerTickFunctions doneF s).1).1.m_fadeSequenceTimeoutCount = _ ∧
    (timerTickFade tp (timerTickFunctions doneF s).1).1.m_fadeSequenceTimeout = _ ∧
    (timerTickFade tp (timerTickFunctions doneF s).1).1.m_originalGMvalue = _
  rw [timerTickFade_step tp _ (hfr.2.1.trans hf) (by rw [hfr.2.2.2.1]; exact hlt)]
  refine ⟨hfr.2.1.trans hf, ?_, hfr.2.2.1, hfr.2.2.2.2.1⟩
  show (timerTickFunctions doneF s).1.m_fadeSequenceTimeoutCount - (tp : Int) = _
  rw [hfr.2.2.2.1]

/-- A tick taken while a fade-and-stop sequence is due to complete: all
functions are stopped, the queue is cleared, the sequence ends, and the
Grand Master is restored from `m_originalGMvalue`. -/
theorem tick_fading_complete (doneF : Nat → Bool) (tp : Nat) (s : MT)
    (hf : s.m_fadeAllSequence = true)
    (hle : s.m_fadeSequenceTimeoutCount ≤ (tp : Int)) :
    (timerTick doneF tp s).1.m_functionList = [] ∧
    (timerTick doneF tp s).1.m_startQueue = [] ∧
    (timerTick doneF tp s).1.m_fadeAllSequence = false ∧
    (timerTick doneF tp s).1.grandMaster = s.m_originalGMvalue := by
  have hfr := timerTickFunctions_frame doneF s
  show (timerTickFade tp (timerTickFunctions doneF s).1).1.m_functionList = [] ∧
    (timerTickFade tp (timerTickFunctions doneF s).1).1.m_startQueue = [] ∧
    (timerTickFade tp (timerTickFunctions doneF s).1).1.m_fadeAllSequence = false ∧
    (timerTickFade tp (timerTickFunctions doneF s).1).1.grandMaster = _
  rw [timerTickFade_complete tp _ (hfr.2.1.trans hf) (by rw [hfr.2.2.2.1]; exact hle)]
  refine ⟨rfl, rfl, rfl, ?_⟩
  show (timerTickFunctions doneF s).1.m_originalGMvalue = _
  exact hfr.2.2.2.2.1

/-- Splitting a run of `a + b` ticks. -/
theorem runTicks_add (doneF : Nat → Bool) (tp : Nat) :
    ∀ (a b : Nat) (s : MT),
      (runTicks doneF tp (a + b) s).1 =
        (runTicks doneF tp b (runTicks doneF tp a s).1).1 ∧
      (runTicks doneF tp (a + b) s).2 =
        (runTicks doneF tp a s).2 ++ (runTicks doneF tp b (runTicks doneF tp a s).1).2
  | 0, b, s => by simp [runTicks]
  | a + 1, b, s => by
      have hidx : a + 1 + b = (a + b) + 1 := by omega
      rw [hidx]
      have h := runTicks_add doneF tp a b (timerTick doneF tp s).1
      constructor
      · exact h.1
      · show (timerTick doneF tp s).2 ++
            (runTicks doneF tp (a + b) (timerTick doneF tp s).1).2 =
          ((timerTick doneF tp s).2 ++
            (runTicks doneF tp a (timerTick doneF tp s).1).2) ++
            (runTicks doneF tp b (runTicks doneF tp a (timerTick doneF tp s).1).1).2
        rw [h.2, List.append_assoc]

/-- While a fade-and-stop sequence stays strictly in flight for `k` ticks,
the countdown decreases by `k * tp`, the bookkeeping fields are preserved,
and no Grand Master save or restore happens. -/
theorem runTicks_fading (doneF : Nat → Bool) (tp : Nat) :
    ∀ (k : Nat) (s : MT), s.m_fadeAllSequence = true →
      ((k * tp : Nat) : Int) < s.m_fadeSequenceTimeoutCount →
      (runTicks doneF tp k s).1.m_fadeAllSequence = true ∧
      (runTicks doneF tp k s).1.m_fadeSequenceTimeoutCount =
        s.m_fadeSequenceTimeoutCount - ((k * tp : Nat) : Int) ∧
      (runTicks doneF tp k s).1.m_fadeSequenceTimeout = s.m_fadeSequenceTimeout ∧
      (runTicks doneF tp k s).1.m_originalGMvalue = s.m_originalGMvalue ∧
      (runTicks doneF tp k s).2.count Event.restoreGM = 0 ∧
      (runTicks doneF tp k s).2.count Event.saveGM = 0
  | 0, s, hf, _ => by
      refine ⟨hf, ?_, rfl, rfl, rfl, rfl⟩
      show s.m_fadeSequenceTimeoutCount = _
      simp
  | k + 1, s, hf, hlt => by
      have hcast : (((k + 1) * tp : Nat) : Int) = ((k * tp : Nat) : Int) + (tp : Int) := by
        push_cast
        ring
      have htp_lt : (tp : Int) < s.m_fadeSequenceTimeoutCount := by
        have h0 : (0 : Int) ≤ ((k * tp : Nat) : Int) := Int.natCast_nonneg _
        omega
      have hstep := tick_fading_step doneF tp s hf htp_lt
      have hnext : ((k * tp : Nat) : Int) <
          (timerTick doneF tp s).1.m_fadeSequenceTimeoutCount := by
        rw [hstep.2.1]
        omega
      have ih := runTicks_fading doneF tp k (timerTick doneF tp s).1 hstep.1 hnext
      have hnotick : (timerTick doneF tp s).2.count Event.restoreGM = 0 := by
        rw [tick_count_restoreGM doneF tp s, if_neg]
        rintro ⟨-, hle⟩
        omega
      refine ⟨?_, ?_, ?_, ?_, ?_, ?_⟩
      · show (runTicks doneF tp k (timerTick doneF tp s).1).1.m_fadeAllSequence = true
        exact ih.1
      · show (runTicks doneF tp k (timerTick doneF tp s).1).1.m_fadeSequenceTimeoutCount = _
        rw [ih.2.1, hstep.2.1, hcast]
        ring
      · show (runTicks doneF tp k (timerTick doneF tp s).1).1.m_fadeSequenceTimeout = _
        rw [ih.2.2.1, hstep.2.2.1]
      · show (runTicks doneF tp k (timerTick doneF tp s).1).1.m_originalGMvalue = _
        rw [ih.2.2.2.1, hstep.2.2.2]
      · show ((timerTick doneF tp s).2 ++
            (runTicks doneF tp k (timerTick doneF tp s).1).2).count Event.restoreGM = 0
        rw [List.count_append, hnotick, ih.2.2.2.2.1]
      · show ((timerTick doneF tp s).2 ++
            (runTicks doneF tp k (timerTick doneF tp s).1).2).count Event.saveGM = 0
        rw [List.count_append, tick_count_saveGM doneF tp s, ih.2.2.2.2.2]

theorem runTicks_one (doneF : Nat → Bool) (tp : Nat) (s : MT) :
    runTicks doneF tp 1 s = timerTick doneF tp s := by
  simp [runTicks]

/-- Running `n` ticks on any in-flight fade state whose countdown is `T`,
with `(n-1) * tp < T ≤ n * tp`, completes the sequence on the `n`-th tick:
the active set is empty, the Grand Master equals the saved copy, and the
run's trace contains no save and exactly one restore. -/
theorem fade_run_final (doneF : Nat → Bool) (tp n T : Nat) (s1 : MT)
    (hf : s1.m_fadeAllSequence = true)
    (hcnt : s1.m_fadeSequenceTimeoutCount = (T : Int))
    (hn0 : 0 < n) (hcov : T ≤ n * tp) (hstrict : (n - 1) * tp < T) :
    (runTicks doneF tp n s1).1.m_functionList = [] ∧
    (runTicks doneF tp n s1).1.grandMaster = s1.m_originalGMvalue ∧
    (runTicks doneF tp n s1).2.count Event.saveGM = 0 ∧
    (runTicks doneF tp n s1).2.count Event.restoreGM = 1 := by
  have hsplit : n = n - 1 + 1 := by omega
  have hfad := runTicks_fading doneF tp (n - 1) s1 hf
    (by rw [hcnt]; exact_mod_cast hstrict)
  have hmul : (n - 1) * tp + tp = n * tp := by
    cases n with
    | zero => omega
    | succ m => simp [Nat.succ_mul]
  have hle : (runTicks doneF tp (n - 1) s1).1.m_fadeSequenceTimeoutCount ≤ (tp : Int) := by
    rw [hfad.2.1, hcnt]
    have h2 : ((T : Nat) : Int) ≤ ((n * tp : Nat) : Int) := by exact_mod_cast hcov
    have h3 : (((n - 1) * tp : Nat) : Int) + (tp : Int) = ((n * tp : Nat) : Int) := by
      exact_mod_cast hmul
    omega
  have hcomp := tick_fading_complete doneF tp (runTicks doneF tp (n - 1) s1).1 hfad.1 hle
  have hrestore1 : (timerTick doneF tp (runTicks doneF tp (n - 1) s1).1).2.count
      Event.restoreGM = 1 := by
    rw [tick_count_restoreGM, if_pos ⟨hfad.1, hle⟩]
  have hadd := runTicks_add doneF tp (n - 1) 1 s1
  rw [hsplit, hadd.1, hadd.2, runTicks_one, List.count_append, List.count_append]
  refine ⟨hcomp.1, ?_, ?_, ?_⟩
  · rw [hcomp.2.2.2, hfad.2.2.2.1]
  · rw [hfad.2.2.2.2.2, tick_count_saveGM]
  · rw [hfad.2.2.2.2.1, hrestore1]

/-- Starting `fadeAndStopAll(T)` with `T > 0` and running `ceil(T / tp)`
ticks empties the active set, leaves the Grand Master at the captured
(mod-256) value, and the whole trace contains exactly one Grand Master save
and exactly one restore. -/
theorem fade_sequence_final (doneF : Nat → Bool) (tp T : Nat) (s : MT)
    (htp : 0 < tp) (hT : 0 < T) :
    (runTicks doneF tp ((T + tp - 1) / tp) (fadeAndStopAll (T : Int) s).1).1.m_functionList
        = [] ∧
    (runTicks doneF tp ((T + tp - 1) / tp) (fadeAndStopAll (T : Int) s).1).1.grandMaster
        = s.grandMaster % 256 ∧
    ((fadeAndStopAll (T : Int) s).2 ++
        (runTicks doneF tp ((T + tp - 1) / tp) (fadeAndStopAll (T : Int) s).1).2).count
          Event.saveGM = 1 ∧
    ((fadeAndStopAll (T : Int) s).2 ++
        (runTicks doneF tp ((T + tp - 1) / tp) (fadeAndStopAll (T : Int) s).1).2).count
          Event.restoreGM = 1 := by
  have hcall : fadeAndStopAll (T : Int) s =
      ({ s with
           m_fadeAllSequence := true
           m_fadeSequenceTimeout := (T : Int)
           m_fadeSequenceTimeoutCount := (T : Int)
           m_originalGMvalue := s.grandMaster % 256 }, [Event.saveGM]) := by
    rw [fadeAndStopAll, if_neg (by omega)]
  have hp1 : (fadeAndStopAll (T : Int) s).1.m_fadeAllSequence = true := by rw [hcall]
  have hp2 : (fadeAndStopAll (T : Int) s).1.m_fadeSequenceTimeoutCount = (T : Int) := by
    rw [hcall]
  have hp3 : (fadeAndStopAll (T : Int) s).1.m_originalGMvalue = s.grandMaster % 256 := by
    rw [hcall]
  have hp4 : (fadeAndStopAll (T : Int) s).2 = [Event.saveGM] := by rw [hcall]
  obtain ⟨hn1, hn2, hn3⟩ := ceil_div_facts T tp hT htp
  have hrun := fade_run_final doneF tp ((T + tp - 1) / tp) T (fadeAndStopAll (T : Int) s).1
    hp1 hp2 hn1 hn2 hn3
  refine ⟨hrun.1, ?_, ?_, ?_⟩
  · rw [hrun.2.1, hp3]
  · rw [hp4, List.count_append, hrun.2.2.1]
    rfl
  · rw [hp4, List.count_append, hrun.2.2.2]
    rfl

/-! ### Claim C1 -/

/-- **C1.** For every fade-and-stop sequence started by `fadeAndStopAll(T)`
with `T > 0`, after `ceil(T / tickPeriod)` ticks the active Function set is
empty and the Grand Master value equals the value it had immediately before
the sequence began; the Grand Master is captured exactly once at the start
and restored exactly once at completion.  (The Grand Master is an 8-bit
attenuation value, hence the `< 256` bound.) -/
theorem C1_fadeAndStopAll_sequence (doneF : Nat → Bool) (tp T : Nat) (s : MT)
    (htp : 0 < tp) (hT : 0 < T) (hgm : s.grandMaster < 256) :
    runningFunctions
        (runTicks doneF tp ((T + tp - 1) / tp) (fadeAndStopAll (T : Int) s).1).1 = 0 ∧
    (runTicks doneF tp ((T + tp - 1) / tp) (fadeAndStopAll (T : Int) s).1).1.grandMaster
        = s.grandMaster ∧
    ((fadeAndStopAll (T : Int) s).2 ++
        (runTicks doneF tp ((T + tp - 1) / tp) (fadeAndStopAll (T : Int) s).1).2).count
          Event.saveGM = 1 ∧
    ((fadeAndStopAll (T : Int) s).2 ++
        (runTicks doneF tp ((T + tp - 1) / tp) (fadeAndStopAll (T : Int) s).1).2).count
          Event.restoreGM = 1 := by
  obtain ⟨h1, h2, h3, h4⟩ := fade_sequence_final doneF tp T s htp hT
  refine ⟨?_, ?_, h3, h4⟩
  · show ((runTicks doneF tp ((T + tp - 1) / tp)
        (fadeAndStopAll (T : Int) s).1).1.m_functionList).length = 0
    rw [h1]
    rfl
  · rw [h2, Nat.mod_eq_of_lt hgm]

/-- **C1 witness.** The sequence theorem applied with a 20 ms tick and a
50 ms fade on a concrete state (`ceil(50/20) = 3` ticks). -/
theorem C1_fadeAndStopAll_sequence_witness :
    runningFunctions
        (runTicks (fun _ => false) 20 ((50 + 20 - 1) / 20) (fadeAndStopAll (50 : Int) mtEx).1).1
          = 0 ∧
    (runTicks (fun _ => false) 20 ((50 + 20 - 1) / 20)
        (fadeAndStopAll (50 : Int) mtEx).1).1.grandMaster = mtEx.grandMaster ∧
    ((fadeAndStopAll (50 : Int) mtEx).2 ++
        (runTicks (fun _ => false) 20 ((50 + 20 - 1) / 20)
          (fadeAndStopAll (50 : Int) mtEx).1).2).count Event.saveGM = 1 ∧
    ((fadeAndStopAll (50 : Int) mtEx).2 ++
        (runTicks (fun _ => false) 20 ((50 + 20 - 1) / 20)
          (fadeAndStopAll (50 : Int) mtEx).1).2).count Event.restoreGM = 1 :=
  C1_fadeAndStopAll_sequence (fun _ => false) 20 50 mtEx (by decide) (by decide) (by decide)

/-! ### Claim C10 -/

/-- **C10.** The Grand Master value captured at the start of a fade-and-stop
sequence is stored in the 8-bit field `m_originalGMvalue`, so the value
restored at completion equals the captured value reduced modulo 256, and the
restoration is exact if and only if the pre-sequence Grand Master value lies
in 0..255. -/
theorem C10_gm_capture_mod256 (doneF : Nat → Bool) (tp T : Nat) (s : MT)
    (htp : 0 < tp) (hT : 0 < T) :
    (fadeAndStopAll (T : Int) s).1.m_originalGMvalue = s.grandMaster % 256 ∧
    (runTicks doneF tp ((T + tp - 1) / tp) (fadeAndStopAll (T : Int) s).1).1.grandMaster
        = s.grandMaster % 256 ∧
    ((runTicks doneF tp ((T + tp - 1) / tp) (fadeAndStopAll (T : Int) s).1).1.grandMaster
        = s.grandMaster ↔ s.grandMaster < 256) := by
  obtain ⟨-, h2, -, -⟩ := fade_sequence_final doneF tp T s htp hT
  have hp3 : (fadeAndStopAll (T : Int) s).1.m_originalGMvalue = s.grandMaster % 256 := by
    rw [fadeAndStopAll, if_neg (by omega)]
  refine ⟨hp3, h2, ?_⟩
  rw [h2]
  constructor
  · intro h
    by_contra hge
    have : s.grandMaster % 256 < 256 := Nat.mod_lt _ (by omega)
    omega
  · exact fun h => Nat.mod_eq_of_lt h

/-- **C10 witness.** With a pre-sequence Grand Master value of 300, the
restored value is `300 % 256 = 44`, and restoration is not exact. -/
theorem C10_gm_capture_mod256_witness :
    (fadeAndStopAll (25 : Int) { mtEx with grandMaster := 300 }).1.m_originalGMvalue
        = ({ mtEx with grandMaster := 300 } : MT).grandMaster % 256 ∧
    (runTicks (fun _ => false) 20 ((25 + 20 - 1) / 20)
        (fadeAndStopAll (25 : Int) { mtEx with grandMaster := 300 }).1).1.grandMaster
        = ({ mtEx with grandMaster := 300 } : MT).grandMaster % 256 ∧
    ((runTicks (fun _ => false) 20 ((25 + 20 - 1) / 20)
        (fadeAndStopAll (25 : Int) { mtEx with grandMaster := 300 }).1).1.grandMaster
        = ({ mtEx with grandMaster := 300 } : MT).grandMaster ↔
      ({ mtEx with grandMaster := 300 } : MT).grandMaster < 256) :=
  C10_gm_capture_mod256 (fun _ => false) 20 25 { mtEx with grandMaster := 300 }
    (by decide) (by decide)

/-! ### Claim C3 -/

theorem iterStart_mem (f : Nat) :
    ∀ (n : Nat) (s : MT), f ∈ s.m_startQueue → iterStart f n s = s
  | 0, _, _ => rfl
  | n + 1, s, h => by
      show iterStart f n (startFunction f s) = s
      rw [show startFunction f s = s from by rw [startFunction, if_pos (Or.inr h)]]
      exact iterStart_mem f n s h

/-- One or more `startFunction(f)` calls on a fresh `f` append it to the
pending-start queue exactly once. -/
theorem iterStart_fresh (f : Nat) (n : Nat) (s : MT) (hn : 1 ≤ n)
    (h1 : f ∉ s.m_functionList) (h2 : f ∉ s.m_startQueue) :
    iterStart f n s = { s with m_startQueue := s.m_startQueue ++ [f] } := by
  obtain ⟨m, rfl⟩ : ∃ m, n = m + 1 := ⟨n - 1, by omega⟩
  show iterStart f m (startFunction f s) = _
  rw [show startFunction f s = { s with m_startQueue := s.m_startQueue ++ [f] } from by
        rw [startFunction, if_neg (by simp [h1, h2])]]
  apply iterStart_mem
  simp

/-- In a tick without the stop-all flag, `f.advance` is invoked once per
occurrence of `f` in the active list and the pending-start queue. -/
theorem tick_count_advance (doneF : Nat → Bool) (tp : Nat) (s : MT) (f : Nat)
    (hstop : s.m_stopAllFunctions = false) :
    (timerTick doneF tp s).2.count (Event.advance f) =
      (s.m_functionList ++ s.m_startQueue).count f := by
  simp only [timerTick]
  rw [List.count_append, List.count_append, List.count_append, List.count_append,
      List.count_append]
  rw [timerTickFunctions_run doneF s hstop]
  simp only [timerTickDMXSources]
  rw [count_map_writeSource _ _ (fun g h => by cases h)]
  rw [count_fade_events _ _ _ (by intro h; cases h) (by intro h; cases h)]
  rw [count_notif _ _ (by intro h; cases h)]
  rw [List.count_append, count_map_promote _ _ (fun g h => by cases h)]
  rw [List.count_map_of_injective _ Event.advance (fun a b h => Event.advance.inj h)]
  simp [timerTickFader, List.count_cons]

/-- **C3.** A `startFunction(f)` on an already active or already queued `f`
is a no-op; for a fresh `f`, any sequence of one or more `startFunction(f)`
calls before the next tick boundary appends `f` to the pending-start queue
exactly once, and `f.advance` is invoked exactly once in the next tick. -/
theorem C3_startFunction_idempotent_enqueue (doneF : Nat → Bool) (tp n : Nat)
    (f g : Nat) (s t : MT) (hn : 1 ≤ n)
    (h1 : f ∉ s.m_functionList) (h2 : f ∉ s.m_startQueue)
    (hstop : s.m_stopAllFunctions = false)
    (hg : g ∈ t.m_functionList ∨ g ∈ t.m_startQueue) :
    iterStart f n s = { s with m_startQueue := s.m_startQueue ++ [f] } ∧
    (timerTick doneF tp (iterStart f n s)).2.count (Event.advance f) = 1 ∧
    startFunction g t = t := by
  have hiter := iterStart_fresh f n s hn h1 h2
  refine ⟨hiter, ?_, by rw [startFunction, if_pos hg]⟩
  rw [hiter,
      tick_count_advance doneF tp { s with m_startQueue := s.m_startQueue ++ [f] } f hstop]
  show (s.m_functionList ++ (s.m_startQueue ++ [f])).count f = 1
  rw [List.count_append, List.count_append,
      List.count_eq_zero_of_not_mem h1, List.count_eq_zero_of_not_mem h2]
  simp

/-- **C3 witness.** Three `startFunction(7)` calls on a concrete state
enqueue once and advance once in the next tick; `startFunction(1)` on the
same state (1 is active) is a no-op. -/
theorem C3_startFunction_idempotent_enqueue_witness :
    iterStart 7 3 mtEx = { mtEx with m_startQueue := mtEx.m_startQueue ++ [7] } ∧
    (timerTick (fun _ => false) 20 (iterStart 7 3 mtEx)).2.count (Event.advance 7) = 1 ∧
    startFunction 1 mtEx = mtEx :=
  C3_startFunction_idempotent_enqueue (fun _ => false) 20 3 7 1 mtEx mtEx
    (by decide) (by decide) (by decide) (by decide) (Or.inl (by decide))

/-! ### Claim C6 -/

/-- Recognizer for source-write events. -/
def isWriteEvent : Event → Bool
  | .writeSource _ => true
  | _ => false

theorem filter_write_map_promote (l : List Nat) :
    (l.map Event.promote).filter isWriteEvent = [] := by
  rw [List.filter_eq_nil_iff]
  intro e he
  obtain ⟨f, _, rfl⟩ := List.mem_map.mp he
  simp [isWriteEvent]

theorem filter_write_map_advance (l : List Nat) :
    (l.map Event.advance).filter isWriteEvent = [] := by
  rw [List.filter_eq_nil_iff]
  intro e he
  obtain ⟨f, _, rfl⟩ := List.mem_map.mp he
  simp [isWriteEvent]

theorem filter_write_stage1 (doneF : Nat → Bool) (s : MT) :
    (timerTickFunctions doneF s).2.1.filter isWriteEvent = [] := by
  by_cases h : s.m_stopAllFunctions = true
  · rw [timerTickFunctions_stop doneF s h]
    rfl
  · rw [timerTickFunctions_run doneF s (bool_ne_true h)]
    show ((s.m_startQueue.map Event.promote) ++
        (s.m_functionList ++ s.m_startQueue).map Event.advance).filter isWriteEvent = []
    rw [List.filter_append, filter_write_map_promote, filter_write_map_advance]
    rfl

theorem filter_write_fade (tp : Nat) (s : MT) :
    (timerTickFade tp s).2.1.filter isWriteEvent = [] := by
  by_cases h : s.m_fadeAllSequence = true
  · by_cases hle : s.m_fadeSequenceTimeoutCount ≤ (tp : Int)
    · rw [timerTickFade_complete tp s h hle]
      rfl
    · rw [timerTickFade_step tp s h (by omega)]
      rfl
  · rw [timerTickFade_idle tp s (bool_ne_true h)]
    rfl

/-- Within one tick the source-write events are exactly the registered
sources, in registration order. -/
theorem tick_write_events (doneF : Nat → Bool) (tp : Nat) (s : MT) :
    (timerTick doneF tp s).2.filter isWriteEvent =
      s.m_dmxSourceList.map Event.writeSource := by
  simp only [timerTick]
  rw [List.filter_append, List.filter_append, List.filter_append, List.filter_append,
      List.filter_append]
  rw [filter_write_stage1, filter_write_fade]
  rw [show (timerTickDMXSources (timerTickFunctions doneF s).1).filter isWriteEvent =
        (timerTickFunctions doneF s).1.m_dmxSourceList.map Event.writeSource from by
      simp only [timerTickDMXSources]
      rw [List.filter_eq_self.mpr]
      intro e he
      obtain ⟨f, _, rfl⟩ := List.mem_map.mp he
      rfl]
  rw [(timerTickFunctions_frame doneF s).2.2.2.2.2.1]
  rw [show (if ((timerTickFunctions doneF s).2.2 ||
        (timerTickFade tp (timerTickFunctions doneF s).1).2.2) = true
      then [Event.listChanged] else []).filter isWriteEvent = [] from by
    split <;> rfl]
  simp [timerTickFader, isWriteEvent]

theorem tick_count_writeSource (doneF : Nat → Bool) (tp : Nat) (s : MT) (a : Nat) :
    (timerTick doneF tp s).2.count (Event.writeSource a) =
      s.m_dmxSourceList.count a := by
  simp only [timerTick]
  rw [List.count_append, List.count_append, List.count_append, List.count_append,
      List.count_append]
  rw [count_stage1_events doneF s _ (fun g h => by cases h) (fun g h => by cases h)]
  rw [count_fade_events _ _ _ (by intro h; cases h) (by intro h; cases h)]
  rw [count_notif _ _ (by intro h; cases h)]
  simp only [timerTickDMXSources]
  rw [List.count_map_of_injective _ Event.writeSource (fun a b h => Event.writeSource.inj h)]
  rw [(timerTickFunctions_frame doneF s).2.2.2.2.2.1]
  simp [timerTickFader, List.count_cons]

/-- **C6.** Registering an already registered DMX source is a no-op, and so
is unregistering a source that is not registered; neither signals an error
(both are total and return the state unchanged).  During every tick each
registered source's `write` is invoked exactly once, in registration
order. -/
theorem C6_dmx_source_registry (doneF : Nat → Bool) (tp : Nat) (a b : Nat) (s : MT)
    (ha : a ∈ s.m_dmxSourceList) (hb : b ∉ s.m_dmxSourceList)
    (hnd : s.m_dmxSourceList.Nodup) :
    registerDMXSource a s = s ∧
    unregisterDMXSource b s = s ∧
    (timerTick doneF tp s).2.filter isWriteEvent =
      s.m_dmxSourceList.map Event.writeSource ∧
    (timerTick doneF tp s).2.count (Event.writeSource a) = 1 := by
  refine ⟨by rw [registerDMXSource, if_pos ha], ?_, tick_write_events doneF tp s, ?_⟩
  · show { s with m_dmxSourceList := s.m_dmxSourceList.erase b } = s
    rw [List.erase_of_not_mem hb]
  · rw [tick_count_writeSource doneF tp s a]
    exact List.count_eq_one_of_mem hnd ha

/-- **C6 witness.** On a concrete state with source 5 registered:
re-registering 5 and unregistering 9 are no-ops, and the tick writes exactly
source 5 once. -/
theorem C6_dmx_source_registry_witness :
    registerDMXSource 5 mtEx = mtEx ∧
    unregisterDMXSource 9 mtEx = mtEx ∧
    (timerTick (fun _ => false) 20 mtEx).2.filter isWriteEvent =
      mtEx.m_dmxSourceList.map Event.writeSource ∧
    (timerTick (fun _ => false) 20 mtEx).2.count (Event.writeSource 5) = 1 :=
  C6_dmx_source_registry (fun _ => false) 20 5 9 mtEx (by decide) (by decide) (by decide)

/-! ### Claim C9 -/

theorem tick_count_listChanged (doneF : Nat → Bool) (tp : Nat) (s : MT) :
    (timerTick doneF tp s).2.count Event.listChanged =
      if ((timerTickFunctions doneF s).2.2 ||
            (timerTickFade tp (timerTickFunctions doneF s).1).2.2) = true
      then 1 else 0 := by
  simp only [timerTick]
  rw [List.count_append, List.count_append, List.count_append, List.count_append,
      List.count_append]
  rw [count_stage1_events doneF s _ (fun g h => by cases h) (fun g h => by cases h)]
  rw [count_fade_events _ _ _ (by intro h; cases h) (by intro h; cases h)]
  rw [show (timerTickDMXSources (timerTickFunctions doneF s).1).count Event.listChanged = 0
      from by
        simp only [timerTickDMXSources]
        exact count_map_writeSource _ _ (fun g h => by cases h)]
  split <;> simp [timerTickFader]

/-- The coalesced notification flag computed by the tick pipeline agrees
with the direct membership-change characterization of the pre-state. -/
theorem changed_flag_eq (doneF : Nat → Bool) (tp : Nat) (s : MT) :
    ((timerTickFunctions doneF s).2.2 ||
        (timerTickFade tp (timerTickFunctions doneF s).1).2.2) =
      membershipChanged doneF tp s := by
  by_cases h : s.m_stopAllFunctions = true
  · rw [timerTickFunctions_stop doneF s h]
    show (!s.m_functionList.isEmpty ||
        (timerTickFade tp
          { s with m_functionList := [], m_startQueue := [],
                   m_stopAllFunctions := false }).2.2) = membershipChanged doneF tp s
    have h5 : (timerTickFade tp
        { s with m_functionList := [], m_startQueue := [],
                 m_stopAllFunctions := false }).2.2 = false := by
      by_cases hf : s.m_fadeAllSequence = true
      · by_cases hle : s.m_fadeSequenceTimeoutCount ≤ (tp : Int)
        · rw [timerTickFade_complete tp
            { s with m_functionList := [], m_startQueue := [],
                     m_stopAllFunctions := false } hf hle]
          rfl
        · rw [timerTickFade_step tp
            { s with m_functionList := [], m_startQueue := [],
                     m_stopAllFunctions := false } hf
            (by show (tp : Int) < s.m_fadeSequenceTimeoutCount; omega)]
      · rw [timerTickFade_idle tp
          { s with m_functionList := [], m_startQueue := [],
                   m_stopAllFunctions := false } (bool_ne_true hf)]
    rw [h5]
    simp [membershipChanged, h]
  · rw [timerTickFunctions_run doneF s (bool_ne_true h)]
    show ((!s.m_startQueue.isEmpty || (s.m_functionList ++ s.m_startQueue).any doneF) ||
        (timerTickFade tp
          { s with
              m_functionList :=
                (s.m_functionList ++ s.m_startQueue).filter (fun f => !doneF f),
              m_startQueue := [] }).2.2) = membershipChanged doneF tp s
    by_cases hf : s.m_fadeAllSequence = true
    · by_cases hle : s.m_fadeSequenceTimeoutCount ≤ (tp : Int)
      · rw [timerTickFade_complete tp
          { s with
              m_functionList :=
                (s.m_functionList ++ s.m_startQueue).filter (fun f => !doneF f),
              m_startQueue := [] } hf hle]
        show ((!s.m_startQueue.isEmpty || (s.m_functionList ++ s.m_startQueue).any doneF) ||
            !((s.m_functionList ++ s.m_startQueue).filter (fun f => !doneF f)).isEmpty) =
          membershipChanged doneF tp s
        simp [membershipChanged, bool_ne_true h, hf, hle, Bool.or_assoc]
      · rw [timerTickFade_step tp
          { s with
              m_functionList :=
                (s.m_functionList ++ s.m_startQueue).filter (fun f => !doneF f),
              m_startQueue := [] } hf
          (by show (tp : Int) < s.m_fadeSequenceTimeoutCount; omega)]
        simp [membershipChanged, bool_ne_true h, hf, hle]
    · rw [timerTickFade_idle tp
        { s with
            m_functionList :=
              (s.m_functionList ++ s.m_startQueue).filter (fun f => !doneF f),
            m_startQueue := [] } (bool_ne_true hf)]
      simp [membershipChanged, bool_ne_true h, bool_ne_true hf]

/-- **C9.** In every tick in which the active set's membership changes
(additions, removals, or a stop-all sweep) the "function list changed"
notification is emitted, coalesced to exactly one emission per tick; in a
tick with no membership change it is not emitted — so it is emitted at most
once per tick in all cases. -/
theorem C9_listChanged_coalesced (doneF : Nat → Bool) (tp : Nat) (s : MT) :
    (timerTick doneF tp s).2.count Event.listChanged ≤ 1 ∧
    (timerTick doneF tp s).2.count Event.listChanged =
      (if membershipChanged doneF tp s = true then 1 else 0) := by
  have h := tick_count_listChanged doneF tp s
  rw [changed_flag_eq doneF tp s] at h
  exact ⟨by rw [h]; split <;> omega, h⟩

/-! ### Claim C5 -/

/-- Prepending a block of constant pipeline stage `k` to a stage-sorted
suffix whose stages are all at least `m ≥ k` keeps the list stage-sorted. -/
theorem pairwise_stage_build (l r : List Event) (k m : Nat) (hkm : k ≤ m)
    (hl : ∀ e ∈ l, stageOf e = k)
    (hr : List.Pairwise (fun a b => stageOf a ≤ stageOf b) r)
    (hrb : ∀ e ∈ r, m ≤ stageOf e) :
    List.Pairwise (fun a b => stageOf a ≤ stageOf b) (l ++ r) ∧
      ∀ e ∈ l ++ r, k ≤ stageOf e := by
  constructor
  · rw [List.pairwise_append]
    refine ⟨List.pairwise_of_forall_mem_list (fun a ha b hb => ?_), hr,
      fun a ha b hb => ?_⟩
    · rw [hl a ha, hl b hb]
    · rw [hl a ha]
      exact le_trans hkm (hrb b hb)
  · intro e he
    rcases List.mem_append.mp he with h1 | h1
    · rw [hl e h1]
    · exact le_trans hkm (hrb e h1)

theorem stage_map_promote (l : List Nat) :
    ∀ e ∈ l.map Event.promote, stageOf e = 1 := by
  intro e he
  obtain ⟨f, _, rfl⟩ := List.mem_map.mp he
  rfl

theorem stage_map_advance (l : List Nat) :
    ∀ e ∈ l.map Event.advance, stageOf e = 2 := by
  intro e he
  obtain ⟨f, _, rfl⟩ := List.mem_map.mp he
  rfl

theorem stage_dmx (s : MT) : ∀ e ∈ timerTickDMXSources s, stageOf e = 3 := by
  intro e he
  simp only [timerTickDMXSources] at he
  obtain ⟨f, _, rfl⟩ := List.mem_map.mp he
  rfl

theorem stage_fade (tp : Nat) (s : MT) :
    ∀ e ∈ (timerTickFade tp s).2.1, stageOf e = 5 := by
  intro e he
  by_cases h : s.m_fadeAllSequence = true
  · by_cases hle : s.m_fadeSequenceTimeoutCount ≤ (tp : Int)
    · rw [timerTickFade_complete tp s h hle] at he
      simp only [List.mem_cons, List.not_mem_nil, or_false] at he
      rcases he with rfl | rfl
      · rfl
      · rfl
    · rw [timerTickFade_step tp s h (by omega)] at he
      simp only [List.mem_cons, List.not_mem_nil, or_false] at he
      subst he
      rfl
  · rw [timerTickFade_idle tp s (bool_ne_true h)] at he
    cases he

theorem stage_notif (c : Prop) [Decidable c] :
    ∀ e ∈ (if c then [Event.listChanged] else []), stageOf e = 6 := by
  intro e he
  split at he
  · simp only [List.mem_cons, List.not_mem_nil, or_false] at he
    subst he
    rfl
  · cases he

theorem count_fade_countdown (tp : Nat) (s : MT) :
    (timerTickFade tp s).2.1.count Event.fadeCountdown =
      if s.m_fadeAllSequence = true then 1 else 0 := by
  by_cases h : s.m_fadeAllSequence = true
  · by_cases hle : s.m_fadeSequenceTimeoutCount ≤ (tp : Int)
    · simp [timerTickFade_complete tp s h hle, List.count_cons, h]
    · simp [timerTickFade_step tp s h (by omega), List.count_cons, h]
  · simp [timerTickFade_idle tp s (bool_ne_true h), bool_ne_true h]

/-- The function-stage events are stage-sorted and confined to stages 1-2
(promotions, then advances). -/
theorem stage1_sorted (doneF : Nat → Bool) (s : MT) :
    List.Pairwise (fun a b => stageOf a ≤ stageOf b) (timerTickFunctions doneF s).2.1 ∧
    ∀ e ∈ (timerTickFunctions doneF s).2.1, stageOf e ≤ 2 := by
  by_cases h : s.m_stopAllFunctions = true
  · rw [timerTickFunctions_stop doneF s h]
    exact ⟨List.Pairwise.nil, by intro e he; cases he⟩
  · rw [timerTickFunctions_run doneF s (bool_ne_true h)]
    show List.Pairwise (fun a b => stageOf a ≤ stageOf b)
        (s.m_startQueue.map Event.promote ++
          (s.m_functionList ++ s.m_startQueue).map Event.advance) ∧
      ∀ e ∈ s.m_startQueue.map Event.promote ++
          (s.m_functionList ++ s.m_startQueue).map Event.advance, stageOf e ≤ 2
    constructor
    · rw [List.pairwise_append]
      refine ⟨List.pairwise_of_forall_mem_list (fun a ha b hb => ?_),
        List.pairwise_of_forall_mem_list (fun a ha b hb => ?_),
        fun a ha b hb => ?_⟩
      · rw [stage_map_promote _ a ha, stage_map_promote _ b hb]
      · rw [stage_map_advance _ a ha, stage_map_advance _ b hb]
      · rw [stage_map_promote _ a ha, stage_map_advance _ b hb]
        omega
    · intro e he
      rcases List.mem_append.mp he with h1 | h1
      · rw [stage_map_promote _ e h1]
        omega
      · rw [stage_map_advance _ e h1]

/-- The whole tick trace is sorted by pipeline stage. -/
theorem tick_trace_sorted (doneF : Nat → Bool) (tp : Nat) (s : MT) :
    List.Pairwise (fun a b => stageOf a ≤ stageOf b) (timerTick doneF tp s).2 := by
  simp only [timerTick, List.append_assoc]
  have B7 : List.Pairwise (fun a b => stageOf a ≤ stageOf b) [Event.handOff] ∧
      ∀ e ∈ [Event.handOff], 7 ≤ stageOf e := by
    refine ⟨List.pairwise_singleton _ _, ?_⟩
    intro e he
    simp only [List.mem_cons, List.not_mem_nil, or_false] at he
    subst he
    exact le_refl _
  have B6 := pairwise_stage_build _ _ 6 7 (by omega)
    (stage_notif (((timerTickFunctions doneF s).2.2 ||
      (timerTickFade tp (timerTickFunctions doneF s).1).2.2) = true)) B7.1 B7.2
  have B5 := pairwise_stage_build _ _ 5 6 (by omega)
    (stage_fade tp (timerTickFunctions doneF s).1) B6.1 B6.2
  have B4 := pairwise_stage_build [Event.runFader] _ 4 5 (by omega)
    (by intro e he
        simp only [List.mem_cons, List.not_mem_nil, or_false] at he
        subst he
        rfl) B5.1 B5.2
  have B3 := pairwise_stage_build _ _ 3 4 (by omega)
    (stage_dmx (timerTickFunctions doneF s).1) B4.1 B4.2
  rw [List.pairwise_append]
  refine ⟨(stage1_sorted doneF s).1, B3.1, fun a ha b hb => ?_⟩
  exact le_trans ((stage1_sorted doneF s).2 a ha)
    (le_trans (by omega) (B3.2 b hb))

/-- **C5.** Every tick executes the pipeline stages strictly in order —
(1) promote queued starts, (2) advance active Functions, (3) write DMX
sources, (4) run the fader, (5) advance the fade-out countdown when a fade
sequence is active, (6) hand the buffer to the output path — each stage at
most once: the trace is sorted by stage, the fader and the hand-off occur
exactly once with the hand-off last, the countdown event occurs exactly once
when fading and never otherwise, and no other stage emits their events. -/
theorem C5_tick_pipeline_order (doneF : Nat → Bool) (tp : Nat) (s : MT) :
    List.Pairwise (fun a b => stageOf a ≤ stageOf b) (timerTick doneF tp s).2 ∧
    (timerTick doneF tp s).2.count Event.runFader = 1 ∧
    (timerTick doneF tp s).2.count Event.handOff = 1 ∧
    (timerTick doneF tp s).2.getLast? = some Event.handOff ∧
    (timerTick doneF tp s).2.count Event.fadeCountdown =
      (if s.m_fadeAllSequence = true then 1 else 0) := by
  refine ⟨tick_trace_sorted doneF tp s, ?_, ?_, ?_, ?_⟩
  · simp only [timerTick]
    rw [List.count_append, List.count_append, List.count_append, List.count_append,
        List.count_append]
    rw [count_stage1_events doneF s _ (fun g hg => by cases hg) (fun g hg => by cases hg)]
    rw [count_fade_events _ _ _ (by intro hg; cases hg) (by intro hg; cases hg)]
    rw [count_notif _ _ (by intro hg; cases hg)]
    rw [show (timerTickDMXSources (timerTickFunctions doneF s).1).count Event.runFader = 0
        from by
      simp only [timerTickDMXSources]
      exact count_map_writeSource _ _ (fun g hg => by cases hg)]
    simp [timerTickFader, List.count_cons]
  · simp only [timerTick]
    rw [List.count_append, List.count_append, List.count_append, List.count_append,
        List.count_append]
    rw [count_stage1_events doneF s _ (fun g hg => by cases hg) (fun g hg => by cases hg)]
    rw [count_fade_events _ _ _ (by intro hg; cases hg) (by intro hg; cases hg)]
    rw [count_notif _ _ (by intro hg; cases hg)]
    rw [show (timerTickDMXSources (timerTickFunctions doneF s).1).count Event.handOff = 0
        from by
      simp only [timerTickDMXSources]
      exact count_map_writeSource _ _ (fun g hg => by cases hg)]
    simp [timerTickFader, List.count_cons]
  · simp only [timerTick]
    exact List.getLast?_concat _
  · simp only [timerTick]
    rw [List.count_append, List.count_append, List.count_append, List.count_append,
        List.count_append]
    rw [count_stage1_events doneF s _ (fun g hg => by cases hg) (fun g hg => by cases hg)]
    rw [count_notif _ _ (by intro hg; cases hg)]
    rw [show (timerTickDMXSources (timerTickFunctions doneF s).1).count Event.fadeCountdown = 0
        from by
      simp only [timerTickDMXSources]
      exact count_map_writeSource _ _ (fun g hg => by cases hg)]
    rw [count_fade_countdown tp _, (timerTickFunctions_frame doneF s).2.1]
    simp [timerTickFader, List.count_cons]

end MasterTimer
